import Mathlib

/-!
Verification of the core logic of the Wear-Ly wardrobe application.

The TypeScript sources are embedded shallowly:

* JavaScript strings become `JSStr`, their list of UTF-16 code units,
  so that `charCodeAt`, the default `Array.prototype.sort` comparison
  and `slice` are modelled exactly.
* 32-bit signed arithmetic (`<< 5`, `& hash`) is modelled on `Int`
  with an explicit reduction into `[-2^31, 2^31)`.
* Functions with I/O take an explicit "world" record holding the
  outcome of every external effect (network call, storage upload,
  database statement), return their result together with the list of
  effects they performed, and model a thrown exception as `Except.error`.
-/

namespace WearLy

/-- A JavaScript string, as its sequence of UTF-16 code units. -/
abbrev JSStr := List Nat

/-- Code units of a string literal (all literals used here are ASCII,
where code points and UTF-16 code units agree). -/
def strUnits (s : String) : JSStr := s.data.map Char.toNat

/-- The code unit of the underscore character. -/
def usCode : Nat := 95

/-- Boolean string comparison used by the default `Array.prototype.sort`
comparator: lexicographic on UTF-16 code units. -/
def unitsLe : JSStr → JSStr → Bool
  | [], _ => true
  | _ :: _, [] => false
  | a :: as, b :: bs =>
    if a < b then true
    else if b < a then false
    else unitsLe as bs

/-- The propositional form of `unitsLe`, for use with `List.insertionSort`. -/
def unitsLeRel (a b : JSStr) : Prop := unitsLe a b = true

instance : DecidableRel unitsLeRel := fun a b =>
  inferInstanceAs (Decidable (unitsLe a b = true))

/-! ### 32-bit arithmetic and the combination hash (src/services/tryon.ts) -/

/-- JavaScript `ToInt32`: reduce an integer into `[-2^31, 2^31)` modulo `2^32`.
This is what `x & x` (and the result of `<<`) performs on a JS number. -/
def toInt32 (n : Int) : Int := (n + 2147483648) % 4294967296 - 2147483648

/-- One iteration of the hash loop in `generateCombinationHash`:
`hash = ((hash << 5) - hash) + char; hash = hash & hash;`.
`hash << 5` converts to int32 and shifts (i.e. `toInt32 (hash * 32)`),
the subtraction and addition are exact float64 arithmetic at these
magnitudes, and `hash & hash` is `ToInt32`. -/
def jsHashStep (hash : Int) (c : Nat) : Int :=
  toInt32 (toInt32 (hash * 32) - hash + (c : Int))

/-- Embedding of `Number.prototype.toString(16)` on a natural number: lowercase
hexadecimal code units, no padding, and `"0"` for zero. -/
def hexRep (n : Nat) : JSStr := (Nat.toDigits 16 n).map Char.toNat

/-- Embedding of `Number.prototype.toString()` (base 10) on a natural number, as code units. -/
def decRep (n : Nat) : JSStr := (Nat.toDigits 10 n).map Char.toNat

/-- Embedding of `generateCombinationHash` (src/services/tryon.ts):
sort the item IDs with the default sort, join with underscores after the
profile ID, run the 32-bit hash loop, and return
`profileId.slice(0, 8) + "_" + Math.abs(hash).toString(16)`. -/
def generateCombinationHash (profileId : JSStr) (itemIds : List JSStr) : JSStr :=
  let sortedIds := List.insertionSort unitsLeRel itemIds
  let combined := profileId ++ usCode :: List.intercalate [usCode] sortedIds
  let hash := combined.foldl jsHashStep 0
  profileId.take 8 ++ usCode :: hexRep hash.natAbs

/-! ### Wardrobe data model (src/types/wardrobe.ts) -/

/-- The `Gender` union type of clothing items. -/
inductive Gender
  | male
  | female
  | unisex
deriving DecidableEq

/-- The `ProfileGender` union type of user profiles. -/
inductive ProfileGender
  | male
  | female
  | nonBinary
deriving DecidableEq

/-- The `WardrobeItem` interface. `gender?: Gender | null` becomes
`Option Gender` (`none` covers both `undefined` and `null`). -/
structure WardrobeItem where
  id : JSStr
  userId : JSStr
  imageUrl : JSStr
  isolatedImageUrl : JSStr
  category : JSStr
  subcategory : JSStr
  color : JSStr
  material : JSStr
  attributes : List JSStr
  gender : Option Gender
  createdAt : JSStr
  updatedAt : JSStr
deriving DecidableEq

/-- The `WardrobeItemMetadata` interface (Gemini detection output). -/
structure WardrobeItemMetadata where
  category : JSStr
  subcategory : JSStr
  color : JSStr
  material : JSStr
  attributes : List JSStr
  gender : Option Gender
deriving DecidableEq

/-- The `OutfitVisualization` interface. -/
structure OutfitVisualization where
  id : JSStr
  userId : JSStr
  combinationHash : JSStr
  itemIds : List JSStr
  visualizationUrl : JSStr
  createdAt : JSStr
deriving DecidableEq

/-! ### Gender compatibility (src/services/tryon.ts, checkGenderCompatibility) -/

/-- The `for (const item of items)` loop of `checkGenderCompatibility`:
skip missing/unisex genders, skip everything for non-binary users, and
collect male-item/female-user and female-item/male-user clashes. -/
def incompatibleLoop (userGender : ProfileGender) : List WardrobeItem → List WardrobeItem
  | [] => []
  | item :: rest =>
    match item.gender with
    | none => incompatibleLoop userGender rest
    | some Gender.unisex => incompatibleLoop userGender rest
    | some g =>
      if userGender = ProfileGender.nonBinary then incompatibleLoop userGender rest
      else if (userGender = ProfileGender.male ∧ g = Gender.female) ∨
          (userGender = ProfileGender.female ∧ g = Gender.male) then
        item :: incompatibleLoop userGender rest
      else incompatibleLoop userGender rest

/-- Embedding of `checkGenderCompatibility` (src/services/tryon.ts).
A falsy `userGender` (`null`/`undefined`) is `none`. -/
def checkGenderCompatibility (userGender : Option ProfileGender)
    (items : List WardrobeItem) : Bool × List WardrobeItem :=
  match userGender with
  | none => (true, [])
  | some ug =>
    let incompatibleItems := incompatibleLoop ug items
    (decide (incompatibleItems.length = 0), incompatibleItems)

/-- The predicate the claim uses to characterise incompatibility:
a female item on a male user or a male item on a female user. -/
def incompatiblePred (userGender : Option ProfileGender) (item : WardrobeItem) : Bool :=
  (decide (userGender = some ProfileGender.male) &&
      decide (item.gender = some Gender.female)) ||
    (decide (userGender = some ProfileGender.female) &&
      decide (item.gender = some Gender.male))

/-! ### Try-on visualization flow (src/services/tryon.ts, getTryOnVisualization) -/

/-- The external effects `getTryOnVisualization` can perform, in the order
it performed them. -/
inductive TryOnEvent
  | cacheLookup (hash : JSStr)
  | generate
  | upload (key : JSStr)
  | saveCache (hash : JSStr) (url : JSStr)
deriving DecidableEq

/-- Outcomes of the external effects reachable from `getTryOnVisualization`:
`getCurrentUserId`, `getCachedVisualization`, `generateTryOnVisualization`
(the Gemini call plus local file write), `uploadVisualizationImage`,
`saveVisualization`, and `Date.now()`. -/
structure TryOnWorld where
  currentUserId : Option JSStr
  cacheResult : JSStr → Except JSStr (Option OutfitVisualization)
  generateResult : Except JSStr JSStr
  uploadResult : Except JSStr JSStr
  saveResult : Except JSStr OutfitVisualization
  now : Nat

/-- Message of the `Error` thrown when no user is signed in. -/
def authErrMsg : JSStr := strUnits ("User not authenticated")

/-- The straight-line tail of `getTryOnVisualization` after the cache
check: generate, upload under `timestampedHash`, save under the original
`combinationHash`. -/
def finishGeneration (w : TryOnWorld) (combinationHash : JSStr)
    (ev0 : List TryOnEvent) (forceRegenerate : Bool) :
    Except JSStr (OutfitVisualization × List TryOnEvent) :=
  match w.generateResult with
  | .error e => .error e
  | .ok _ =>
    let timestampedHash :=
      if forceRegenerate then combinationHash ++ usCode :: decRep w.now
      else combinationHash
    match w.uploadResult with
    | .error e => .error e
    | .ok visualizationUrl =>
      match w.saveResult with
      | .error e => .error e
      | .ok saved =>
        .ok (saved, ev0 ++ [TryOnEvent.generate, TryOnEvent.upload timestampedHash,
          TryOnEvent.saveCache combinationHash visualizationUrl])

/-- Embedding of `getTryOnVisualization` (src/services/tryon.ts).
`personalModelUrl` is only passed on to the generation effect, whose
outcome the world already fixes. -/
def getTryOnVisualization (w : TryOnWorld) (clothingItems : List WardrobeItem)
    (forceRegenerate : Bool) : Except JSStr (OutfitVisualization × List TryOnEvent) :=
  match w.currentUserId with
  | none => .error authErrMsg
  | some userId =>
    let itemIds := clothingItems.map (fun item => item.id)
    let combinationHash := generateCombinationHash userId itemIds
    if forceRegenerate then
      finishGeneration w combinationHash [] true
    else
      match w.cacheResult combinationHash with
      | .error e => .error e
      | .ok (some cached) => .ok (cached, [TryOnEvent.cacheLookup combinationHash])
      | .ok none =>
        finishGeneration w combinationHash [TryOnEvent.cacheLookup combinationHash] false

/-! ### Photoroom background removal (src/services/photoroom.ts) -/

/-- The fields of a `fetch` response that `removeBackground` inspects. -/
structure FetchResponse where
  ok : Bool
  status : Nat
deriving DecidableEq

/-- Outcomes of the effects in `removeBackground`: the API key environment
variable, the `fetch` call, `response.blob()`, the `FileReader`, the
`writeAsStringAsync` call, `cacheDirectory` and `Date.now()`. -/
structure PhotoroomWorld where
  apiKey : Option JSStr
  fetchResult : Except JSStr FetchResponse
  blobResult : Except JSStr Unit
  readerResult : Except JSStr JSStr
  writeResult : Except JSStr Unit
  cacheDir : JSStr
  now : Nat

/-- The URI of the locally written PNG: `cacheDirectory + "isolated_" +
Date.now() + ".png"`. -/
def isolatedUriOf (w : PhotoroomWorld) : JSStr :=
  w.cacheDir ++ strUnits ("isolated_") ++ decRep w.now ++ strUnits (".png")

/-- The `try`-block body of `removeBackground`: any `Except.error` models a
thrown exception, including the explicit `throw` on a non-OK response. -/
def removeBackgroundBody (w : PhotoroomWorld) : Except JSStr JSStr :=
  match w.fetchResult with
  | .error e => .error e
  | .ok response =>
    if response.ok = false then
      .error (strUnits ("Photoroom API failed: ") ++ decRep response.status)
    else
      match w.blobResult with
      | .error e => .error e
      | .ok _ =>
        match w.readerResult with
        | .error e => .error e
        | .ok _ =>
          match w.writeResult with
          | .error e => .error e
          | .ok _ => .ok (isolatedUriOf w)

/-- Embedding of `removeBackground` (src/services/photoroom.ts): missing
API key returns the input directly, and the surrounding `catch` turns any
thrown error into the original URI. The plain (non-`Except`) return type
records that the function never throws. -/
def removeBackground (w : PhotoroomWorld) (imageUri : JSStr) : JSStr :=
  match w.apiKey with
  | none => imageUri
  | some _ =>
    match removeBackgroundBody w with
    | .error _ => imageUri
    | .ok uri => uri

/-- Boolean form of `Except.isOk`. -/
def exceptOk {ε α : Type} : Except ε α → Bool
  | .ok _ => true
  | .error _ => false

/-- All effects of `removeBackground` succeeded: key present, fetch
resolved with an OK status, and blob/reader/write all succeeded. -/
def photoroomSuccess (w : PhotoroomWorld) : Bool :=
  w.apiKey.isSome &&
    (match w.fetchResult with
      | .ok response => response.ok
      | .error _ => false) &&
    exceptOk w.blobResult && exceptOk w.readerResult && exceptOk w.writeResult

/-! ### Upload pipeline (src/hooks/useUploadItem.ts) -/

/-- A `DetectedItem`: detection metadata plus a temporary ID and the
selection flag. -/
structure DetectedItem extends WardrobeItemMetadata where
  id : JSStr
  selected : Bool
deriving DecidableEq

/-- The row returned by `createItem` (snake_case database columns). -/
structure DbItemRow where
  id : JSStr
  user_id : JSStr
  image_url : JSStr
  isolated_image_url : JSStr
  category : JSStr
  subcategory : JSStr
  color : JSStr
  material : JSStr
  attributes : List JSStr
  gender : Option Gender
  created_at : JSStr
  updated_at : JSStr
deriving DecidableEq

/-- The camelCase transformation applied to the created row in
`processSelectedItems`. -/
def toWardrobeItem (row : DbItemRow) : WardrobeItem :=
  { id := row.id
    userId := row.user_id
    imageUrl := row.image_url
    isolatedImageUrl := row.isolated_image_url
    category := row.category
    subcategory := row.subcategory
    color := row.color
    material := row.material
    attributes := row.attributes
    gender := row.gender
    createdAt := row.created_at
    updatedAt := row.updated_at }

/-- Outcomes of the four external effects performed for one selected item:
`generateCleanProductImage`, the two storage uploads, and `createItem`. -/
structure ItemFx where
  genResult : Except JSStr JSStr
  uploadOriginalResult : Except JSStr JSStr
  uploadIsolatedResult : Except JSStr JSStr
  createResult : Except JSStr DbItemRow

/-- Semantics of `Promise.all` over the two uploads: both are started; the combined
promise rejects with the first rejection. -/
def promiseAllUploads (fx : ItemFx) : Except JSStr (JSStr × JSStr) :=
  match fx.uploadOriginalResult with
  | .error e => .error e
  | .ok originalUrl =>
    match fx.uploadIsolatedResult with
    | .error e => .error e
    | .ok isolatedUrl => .ok (originalUrl, isolatedUrl)

/-- All four effects for one item succeeded. -/
def itemFxOk (fx : ItemFx) : Bool :=
  exceptOk fx.genResult && exceptOk (promiseAllUploads fx) && exceptOk fx.createResult

/-- The observable effects of the two-phase upload flow, in order.
`detect` is the `detectAllClothingItems` call of phase 1; the indexed
events are the per-item effects of phase 2. -/
inductive UploadEvent
  | detect
  | generate (i : Nat)
  | uploadOriginal (i : Nat)
  | uploadIsolated (i : Nat)
  | insert (i : Nat)
deriving DecidableEq

/-- The `for` loop of `processSelectedItems`: for the item at position `i`,
generate the clean image, run both uploads under `Promise.all`, insert the
database row, and push the transformed row; the first failure aborts the
loop with the thrown message. Returns (created items, events, thrown). -/
def processLoop (fx : Nat → ItemFx) :
    List DetectedItem → Nat → List WardrobeItem × List UploadEvent × Option JSStr
  | [], _ => ([], [], none)
  | _ :: rest, i =>
    match (fx i).genResult with
    | .error e => ([], [UploadEvent.generate i], some e)
    | .ok _ =>
      match promiseAllUploads (fx i) with
      | .error e =>
        ([], [UploadEvent.generate i, UploadEvent.uploadOriginal i,
          UploadEvent.uploadIsolated i], some e)
      | .ok _ =>
        match (fx i).createResult with
        | .error e =>
          ([], [UploadEvent.generate i, UploadEvent.uploadOriginal i,
            UploadEvent.uploadIsolated i, UploadEvent.insert i], some e)
        | .ok row =>
          let r := processLoop fx rest (i + 1)
          (toWardrobeItem row :: r.1,
            UploadEvent.generate i :: UploadEvent.uploadOriginal i ::
              UploadEvent.uploadIsolated i :: UploadEvent.insert i :: r.2.1,
            r.2.2)

/-- Lowercase an ASCII code unit (`String.prototype.toLowerCase` on the
ASCII range actually used by the matched keywords). -/
def toLowerUnit (c : Nat) : Nat := if 65 ≤ c ∧ c ≤ 90 then c + 32 else c

/-- Embedding of `String.prototype.toLowerCase`. -/
def toLower (s : JSStr) : JSStr := s.map toLowerUnit

/-- Does `s` start with `pat`? -/
def leadsWith : JSStr → JSStr → Bool
  | [], _ => true
  | _ :: _, [] => false
  | p :: ps, c :: cs => p == c && leadsWith ps cs

/-- Embedding of `String.prototype.includes`: some suffix of `s` starts with `pat`. -/
def containsSub (s pat : JSStr) : Bool :=
  match s with
  | [] => leadsWith pat []
  | _ :: rest => leadsWith pat s || containsSub rest pat

/-- The user-friendly error message mapping of the `catch` block of
`processSelectedItems`. -/
def userFacingMessage (raw : JSStr) : JSStr :=
  let message := toLower raw
  if containsSub message (strUnits ("network")) ||
      containsSub message (strUnits ("fetch")) then
    strUnits ("Network error. Please check your connection and try again.")
  else if containsSub message (strUnits ("auth")) ||
      containsSub message (strUnits ("sign in")) then
    strUnits ("Please sign in to upload items.")
  else if containsSub message (strUnits ("api")) ||
      containsSub message (strUnits ("gemini")) then
    strUnits ("AI image generation failed. Please try again.")
  else if containsSub message (strUnits ("quota")) ||
      containsSub message (strUnits ("busy")) then
    strUnits ("AI service is busy. Please wait a moment and try again.")
  else if containsSub message (strUnits ("storage")) ||
      containsSub message (strUnits ("upload")) then
    strUnits ("Failed to upload images. Please check your connection.")
  else if containsSub message (strUnits ("database")) ||
      containsSub message (strUnits ("save")) then
    strUnits ("Failed to save items. Please try again.")
  else raw

/-- Message asking the user to select an item. -/
def selectErrMsg : JSStr := strUnits ("Please select at least one item to add.")

/-- Message asking the user to sign in. -/
def signInErrMsg : JSStr := strUnits ("Please sign in to upload items.")

/-- World of `processSelectedItems`: the signed-in user and the per-index
item effects. -/
structure UploadWorld where
  currentUserId : Option JSStr
  fx : Nat → ItemFx

/-- The outcome of one `processSelectedItems` call: the returned list, the
final `error` state, the performed effects, and the final `detectedItems`
state. -/
structure ProcessResult where
  items : List WardrobeItem
  error : Option JSStr
  events : List UploadEvent
  detectedItemsAfter : List DetectedItem

/-- Embedding of `processSelectedItems` (src/hooks/useUploadItem.ts).
The function never throws: the `catch` block turns any thrown message
into the `error` state and returns the items created so far. -/
def processSelectedItems (w : UploadWorld) (detectedItems : List DetectedItem) :
    ProcessResult :=
  let selectedItems := detectedItems.filter (fun item => item.selected)
  if selectedItems.length = 0 then
    { items := [], error := some selectErrMsg, events := [],
      detectedItemsAfter := detectedItems }
  else
    match w.currentUserId with
    | none =>
      { items := [], error := some (userFacingMessage signInErrMsg), events := [],
        detectedItemsAfter := detectedItems }
    | some _ =>
      let r := processLoop w.fx selectedItems 0
      match r.2.2 with
      | none =>
        { items := r.1, error := none, events := r.2.1, detectedItemsAfter := [] }
      | some e =>
        { items := r.1, error := some (userFacingMessage e), events := r.2.1,
          detectedItemsAfter := detectedItems }

/-! ### Phase 1: analyzeImage (src/hooks/useUploadItem.ts) -/

/-- World of `analyzeImage`: the signed-in user, the outcome of
`detectAllClothingItems`, and `Date.now()`. -/
structure AnalyzeWorld where
  currentUserId : Option JSStr
  detectResult : Except JSStr (List WardrobeItemMetadata)
  now : Nat

/-- The outcome of one `analyzeImage` call. -/
structure AnalyzeResult where
  detected : Option (List DetectedItem)
  error : Option JSStr
  events : List UploadEvent

/-- The temporary ID given to the detected item at position `i`. -/
def detectedIdOf (i : Nat) (now : Nat) : JSStr :=
  strUnits ("detected-") ++ decRep i ++ [45] ++ decRep now

/-- Attach temporary IDs and the default `selected := true` flag. -/
def withSelection (metas : List WardrobeItemMetadata) (now : Nat) : List DetectedItem :=
  metas.enum.map fun p =>
    { toWardrobeItemMetadata := p.2, id := detectedIdOf p.1 now, selected := true }

/-- Message shown when detection finds nothing usable. -/
def noItemsMsg : JSStr :=
  strUnits ("Could not identify any clothing items. Please try a clearer photo.")

/-- The user-friendly error message mapping of the `catch` block of
`analyzeImage`. -/
def analyzeFacingMessage (raw : JSStr) : JSStr :=
  let message := toLower raw
  if containsSub message (strUnits ("network")) ||
      containsSub message (strUnits ("fetch")) then
    strUnits ("Network error. Please check your connection.")
  else if containsSub message (strUnits ("auth")) ||
      containsSub message (strUnits ("sign in")) then
    strUnits ("Please sign in to upload items.")
  else if containsSub message (strUnits ("quota")) ||
      containsSub message (strUnits ("busy")) then
    strUnits ("AI service is busy. Please wait and try again.")
  else raw

/-- Embedding of `analyzeImage` (src/hooks/useUploadItem.ts): check the
user, run detection, fail on an empty detection, otherwise return the
detected items with the default selection. -/
def analyzeImage (w : AnalyzeWorld) : AnalyzeResult :=
  match w.currentUserId with
  | none =>
    { detected := none, error := some (analyzeFacingMessage signInErrMsg), events := [] }
  | some _ =>
    match w.detectResult with
    | .error e =>
      { detected := none, error := some (analyzeFacingMessage e),
        events := [UploadEvent.detect] }
    | .ok metas =>
      if metas.length = 0 then
        { detected := none, error := some noItemsMsg, events := [UploadEvent.detect] }
      else
        { detected := some (withSelection metas w.now), error := none,
          events := [UploadEvent.detect] }

/-- The combined effect trace of the two-phase flow: phase 1 (`analyzeImage`),
then an arbitrary user selection `select` acting on the detected-items state
(`toggleItemSelection` / `selectAllItems` / `deselectAllItems` perform no
external effects), then phase 2 (`processSelectedItems`). -/
def twoPhaseEvents (aw : AnalyzeWorld) (w : UploadWorld)
    (select : List DetectedItem → List DetectedItem) : List UploadEvent :=
  let ar := analyzeImage aw
  ar.events ++ (processSelectedItems w (select (ar.detected.getD []))).events

/-! ### Visualization cache upsert (src/hooks/useWardrobe.ts, saveVisualization) -/

/-- A row of the `outfit_visualizations` table, restricted to the columns
`saveVisualization` supplies. The database-generated surrogate `id` and
`created_at` columns play no role in the uniqueness claim and are elided. -/
structure VisualizationRow where
  user_id : JSStr
  combination_hash : JSStr
  item_ids : List JSStr
  visualization_url : JSStr
deriving DecidableEq

/-- Modelled from the source migration 20260112000000 (`combination_hash
TEXT NOT NULL UNIQUE`) and PostgREST `upsert(..., { onConflict:
"combination_hash" })` semantics: if a row with the hash exists, overwrite
its supplied columns, otherwise append a new row. This is the database
effect performed by `saveVisualization`. -/
def upsertVisualization (table : List VisualizationRow) (ins : VisualizationRow) :
    List VisualizationRow :=
  if table.any (fun r => r.combination_hash == ins.combination_hash) then
    table.map fun r => if r.combination_hash == ins.combination_hash then ins else r
  else table ++ [ins]

/-- The hash column of a table state. -/
def tableHashes (table : List VisualizationRow) : List JSStr :=
  table.map fun r => r.combination_hash

/-- Embedding of `saveVisualization` (src/hooks/useWardrobe.ts) acting on a
table state: build `insertData` from the current user and the arguments and
upsert it on `combination_hash`. Returns the new table state. -/
def saveVisualization (currentUserId : Option JSStr) (table : List VisualizationRow)
    (combinationHash : JSStr) (itemIds : List JSStr) (visualizationUrl : JSStr) :
    Except JSStr (List VisualizationRow) :=
  match currentUserId with
  | none => .error authErrMsg
  | some userId =>
    .ok (upsertVisualization table
      { user_id := userId, combination_hash := combinationHash,
        item_ids := itemIds, visualization_url := visualizationUrl })

/-! ### Optimistic delete (src/hooks/useWardrobe.ts, deleteItem) -/

/-- The local state of the `useWardrobe` hook that `deleteItem` touches. -/
structure WardrobeState where
  items : List WardrobeItem
  error : Option JSStr
deriving DecidableEq

/-- Outcomes of the effects of `deleteItem`: the backend delete (which can
throw or report failure with `false`) and the database refetch performed by
`fetchItems`. -/
structure DeleteWorld where
  deleteResult : Except JSStr Bool
  refetchResult : Except JSStr (List WardrobeItem)

/-- The observable steps of `deleteItem`, in order. -/
inductive DeleteEvent
  | optimisticRemove
  | backendDelete
  | refetch
deriving DecidableEq

/-- Embedding of `fetchItems` (src/hooks/useWardrobe.ts): it catches its
own errors, so it never throws; on success it replaces `items` and clears
`error`, on failure it sets `error` and leaves `items` unchanged. -/
def fetchItemsModel (w : DeleteWorld) (st : WardrobeState) : WardrobeState :=
  match w.refetchResult with
  | .ok fetched => { items := fetched, error := none }
  | .error e => { st with error := some e }

/-- Message of the `Error` thrown when the backend reports failure. -/
def deleteFailedMsg : JSStr := strUnits ("Failed to delete item")

/-- Embedding of `deleteItem` (src/hooks/useWardrobe.ts): optimistically
filter the item out, run the backend delete, refetch on failure (the
`.ok false` branch refetches, throws, and the `catch` refetches again),
set the error state and rethrow; refetch once on success. -/
def deleteItemModel (w : DeleteWorld) (st : WardrobeState) (itemId : JSStr) :
    WardrobeState × Except JSStr Unit × List DeleteEvent :=
  let st1 : WardrobeState :=
    { st with items := st.items.filter fun item => !(item.id == itemId) }
  match w.deleteResult with
  | .error e =>
    let st2 := fetchItemsModel w st1
    ({ st2 with error := some e }, .error e,
      [DeleteEvent.optimisticRemove, DeleteEvent.backendDelete, DeleteEvent.refetch])
  | .ok false =>
    let st2 := fetchItemsModel w st1
    let st3 := fetchItemsModel w st2
    ({ st3 with error := some deleteFailedMsg }, .error deleteFailedMsg,
      [DeleteEvent.optimisticRemove, DeleteEvent.backendDelete,
        DeleteEvent.refetch, DeleteEvent.refetch])
  | .ok true =>
    (fetchItemsModel w st1, .ok (),
      [DeleteEvent.optimisticRemove, DeleteEvent.backendDelete, DeleteEvent.refetch])

/-! ### Concrete fixtures for the closed instance checks -/

/-- A sample cached visualization row. -/
def sampleVis : OutfitVisualization :=
  { id := [118], userId := [117], combinationHash := [104], itemIds := [[97]],
    visualizationUrl := [119], createdAt := [116] }

/-- A sample created database row. -/
def sampleRow : DbItemRow :=
  { id := [105], user_id := [117], image_url := [111], isolated_image_url := [99],
    category := [116], subcategory := [115], color := [98], material := [109],
    attributes := [], gender := some Gender.unisex, created_at := [100],
    updated_at := [100] }

/-- Per-item effects that all succeed. -/
def okItemFx : ItemFx :=
  { genResult := .ok [103], uploadOriginalResult := .ok [111],
    uploadIsolatedResult := .ok [105], createResult := .ok sampleRow }

/-- Per-item effects whose image generation fails. -/
def genFailItemFx : ItemFx :=
  { genResult := .error [101], uploadOriginalResult := .ok [111],
    uploadIsolatedResult := .ok [105], createResult := .ok sampleRow }

/-- A sample detection result. -/
def sampleMeta : WardrobeItemMetadata :=
  { category := [116], subcategory := [115], color := [98], material := [109],
    attributes := [], gender := some Gender.unisex }

/-- A sample selected detected item. -/
def sampleDetected (n : Nat) : DetectedItem :=
  { toWardrobeItemMetadata := sampleMeta, id := decRep n, selected := true }

/-- A try-on world whose cache lookup always hits. -/
def hitWorld : TryOnWorld :=
  { currentUserId := some [117], cacheResult := fun _ => .ok (some sampleVis),
    generateResult := .error [], uploadResult := .error [], saveResult := .error [],
    now := 0 }

/-- A try-on world whose cache lookup misses and whose remaining effects succeed. -/
def missWorld : TryOnWorld :=
  { currentUserId := some [117], cacheResult := fun _ => .ok none,
    generateResult := .ok [108], uploadResult := .ok [118],
    saveResult := .ok sampleVis, now := 7 }

/-- An upload world whose second item fails at image generation. -/
def failUploadWorld : UploadWorld :=
  { currentUserId := some [117], fx := fun i => if i = 0 then okItemFx else genFailItemFx }

/-- An upload world where every item succeeds. -/
def okUploadWorld : UploadWorld :=
  { currentUserId := some [117], fx := fun _ => okItemFx }

/-- An analyze world that detects one item. -/
def sampleAnalyzeWorld : AnalyzeWorld :=
  { currentUserId := some [117], detectResult := .ok [sampleMeta], now := 0 }

/-- A delete world whose backend delete reports failure. -/
def failDeleteWorld : DeleteWorld :=
  { deleteResult := .ok false, refetchResult := .ok [] }

/-- A cache row already stored under the hash `"h"`. -/
def rowA : VisualizationRow :=
  { user_id := [117], combination_hash := [104], item_ids := [[97]],
    visualization_url := [119] }

/-- A new payload for the same hash `"h"`. -/
def rowB : VisualizationRow :=
  { user_id := [117], combination_hash := [104], item_ids := [[98]],
    visualization_url := [122] }

/-! ## Theorems -/

/-! ### Properties of the default sort comparison -/

theorem unitsLe_total : ∀ a b : JSStr, unitsLe a b = true ∨ unitsLe b a = true := by
  intro a
  induction a with
  | nil => intro b; left; rfl
  | cons x as ih =>
    intro b
    cases b with
    | nil => right; rfl
    | cons y bs =>
      by_cases hxy : x < y
      · left; simp [unitsLe, hxy]
      · by_cases hyx : y < x
        · right; simp [unitsLe, hyx, hxy]
        · have heq : x = y := Nat.le_antisymm (Nat.le_of_not_lt hyx) (Nat.le_of_not_lt hxy)
          subst heq
          rcases ih bs with h | h
          · left; simp [unitsLe, h]
          · right; simp [unitsLe, h]

theorem unitsLe_trans : ∀ a b c : JSStr,
    unitsLe a b = true → unitsLe b c = true → unitsLe a c = true := by
  intro a
  induction a with
  | nil => intro b c _ _; rfl
  | cons x as ih =>
    intro b c hab hbc
    cases b with
    | nil => simp [unitsLe] at hab
    | cons y bs =>
      cases c with
      | nil => simp [unitsLe] at hbc
      | cons z cs =>
        simp only [unitsLe] at hab hbc ⊢
        by_cases hxy : x < y
        · by_cases hyz : y < z
          · have hxz : x < z := Nat.lt_trans hxy hyz
            simp [hxz]
          · by_cases hzy : z < y
            · simp [hyz, hzy] at hbc
            · have : y = z := Nat.le_antisymm (Nat.le_of_not_lt hzy) (Nat.le_of_not_lt hyz)
              subst this
              simp [hxy]
        · by_cases hyx : y < x
          · simp [hxy, hyx] at hab
          · have hxyeq : x = y := Nat.le_antisymm (Nat.le_of_not_lt hyx) (Nat.le_of_not_lt hxy)
            subst hxyeq
            by_cases hyz : x < z
            · simp [hyz]
            · by_cases hzy : z < x
              · simp [hyz, hzy] at hbc
              · have : x = z := Nat.le_antisymm (Nat.le_of_not_lt hzy) (Nat.le_of_not_lt hyz)
                subst this
                simp only [lt_irrefl, if_false] at hab hbc ⊢
                exact ih bs cs hab hbc

theorem unitsLe_antisymm : ∀ a b : JSStr,
    unitsLe a b = true → unitsLe b a = true → a = b := by
  intro a
  induction a with
  | nil =>
    intro b _ hba
    cases b with
    | nil => rfl
    | cons y bs => simp [unitsLe] at hba
  | cons x as ih =>
    intro b hab hba
    cases b with
    | nil => simp [unitsLe] at hab
    | cons y bs =>
      simp only [unitsLe] at hab hba
      by_cases hxy : x < y
      · simp [hxy, Nat.lt_asymm hxy] at hba
      · by_cases hyx : y < x
        · simp [hxy, hyx] at hab
        · have hxyeq : x = y := Nat.le_antisymm (Nat.le_of_not_lt hyx) (Nat.le_of_not_lt hxy)
          subst hxyeq
          simp only [lt_irrefl, if_false] at hab hba
          rw [ih bs hab hba]

/-! ### Hash-step lemmas -/

/-- Each step of the hash loop is exactly `31 * hash + char` reduced to a
signed 32-bit integer: `toInt32 (32 h) - h + c` is congruent to `31 h + c`
modulo `2^32`, and `toInt32` only depends on that residue. -/
theorem jsHashStep_eq (h : Int) (c : Nat) : jsHashStep h c = toInt32 (31 * h + c) := by
  unfold jsHashStep toInt32
  omega

/-- Folding the hash step of the code agrees with folding the base-31 step. -/
theorem foldl_jsHashStep (l : List Nat) (h : Int) :
    l.foldl jsHashStep h = l.foldl (fun (a : Int) (c : Nat) => toInt32 (31 * a + c)) h := by
  induction l generalizing h with
  | nil => rfl
  | cons x xs ih => simp only [List.foldl, jsHashStep_eq, ih]

/-- Claim C1: `generateCombinationHash` returns the same hash for any two
item-ID lists that are permutations of each other, because the IDs are
sorted (totally, transitively and antisymmetrically) before hashing. -/
theorem generateCombinationHash_perm_invariant (profileId : JSStr)
    {ids1 ids2 : List JSStr} (hperm : ids1.Perm ids2) :
    generateCombinationHash profileId ids1 = generateCombinationHash profileId ids2 := by
  haveI : IsTotal JSStr unitsLeRel := ⟨unitsLe_total⟩
  haveI : IsTrans JSStr unitsLeRel := ⟨unitsLe_trans⟩
  haveI : IsAntisymm JSStr unitsLeRel := ⟨unitsLe_antisymm⟩
  have hsort : List.insertionSort unitsLeRel ids1 = List.insertionSort unitsLeRel ids2 :=
    List.eq_of_perm_of_sorted
      ((List.perm_insertionSort unitsLeRel ids1).trans
        (hperm.trans (List.perm_insertionSort unitsLeRel ids2).symm))
      (List.sorted_insertionSort unitsLeRel ids1)
      (List.sorted_insertionSort unitsLeRel ids2)
  simp only [generateCombinationHash, hsort]

/-- Claim C1, closed instance: the hash of `"u"` with IDs `["b","a","c"]`
equals the hash with IDs `["a","c","b"]`. -/
theorem generateCombinationHash_perm_invariant_instance :
    ([[98], [97], [99]] : List JSStr).Perm [[97], [99], [98]] ∧
      generateCombinationHash [117] [[98], [97], [99]] =
        generateCombinationHash [117] [[97], [99], [98]] :=
  ⟨by decide, generateCombinationHash_perm_invariant [117] (by decide)⟩

/-- Claim C5: the hash accumulator computes the base-31 rolling hash of
`profileId ++ "_" ++ sortedIds.join("_")` with every step reduced to a
signed 32-bit integer, and the key is the first 8 characters of the profile
ID, an underscore, and the lowercase hex of the absolute value. -/
theorem generateCombinationHash_base31_int32 (profileId : JSStr) (itemIds : List JSStr) :
    generateCombinationHash profileId itemIds =
      profileId.take 8 ++ usCode ::
        hexRep (Int.natAbs
          (List.foldl (fun (h : Int) (c : Nat) => toInt32 (31 * h + c)) 0
            (profileId ++ usCode ::
              List.intercalate [usCode] (List.insertionSort unitsLeRel itemIds)))) := by
  simp only [generateCombinationHash]
  rw [foldl_jsHashStep]

/-! ### Gender compatibility -/

/-- The loop of `checkGenderCompatibility` collects exactly the items
matching the incompatibility predicate. -/
theorem incompatibleLoop_eq_filter (ug : ProfileGender) (items : List WardrobeItem) :
    incompatibleLoop ug items = items.filter (incompatiblePred (some ug)) := by
  induction items with
  | nil => rfl
  | cons item rest ih =>
    cases hg : item.gender with
    | none =>
      cases ug <;>
        simp [incompatibleLoop, List.filter, incompatiblePred, hg, ih]
    | some g =>
      cases g <;> cases ug <;>
        simp [incompatibleLoop, List.filter, incompatiblePred, hg, ih]

/-- Claim C10: `isCompatible` is true exactly when `incompatibleItems` is
empty, and `incompatibleItems` is exactly the sublist of items whose gender
clashes with the user gender (`female` item for a `male` user or `male` item for
a `female` user); absent/`unisex` item genders and absent/`non-binary` user
genders never clash. -/
theorem checkGenderCompatibility_spec (userGender : Option ProfileGender)
    (items : List WardrobeItem) :
    (checkGenderCompatibility userGender items).1 =
        decide ((checkGenderCompatibility userGender items).2 = []) ∧
      (checkGenderCompatibility userGender items).2 =
        items.filter (incompatiblePred userGender) := by
  cases userGender with
  | none =>
    refine ⟨rfl, ?_⟩
    have : ∀ item : WardrobeItem, incompatiblePred none item = false := by
      intro item; rfl
    simp [checkGenderCompatibility, List.filter_eq_nil_iff, this]
  | some ug =>
    simp only [checkGenderCompatibility, incompatibleLoop_eq_filter]
    constructor
    · rw [decide_eq_decide]
      exact List.length_eq_zero
    · trivial

/-! ### Photoroom background removal -/

/-- Claim C9: `removeBackground` never throws; it returns the freshly
written local PNG URI when every effect succeeded and the original input
URI in every other case (missing key, fetch error, non-OK status, blob,
reader or write failure). -/
theorem removeBackground_fallback_spec (w : PhotoroomWorld) (imageUri : JSStr) :
    removeBackground w imageUri =
      if photoroomSuccess w then isolatedUriOf w else imageUri := by
  rcases w with ⟨apiKey, fetchResult, blobResult, readerResult, writeResult, cacheDir, now⟩
  cases apiKey with
  | none => rfl
  | some key =>
    cases fetchResult with
    | error e => rfl
    | ok response =>
      rcases response with ⟨ok, status⟩
      cases ok with
      | false => rfl
      | true =>
        cases blobResult with
        | error e => rfl
        | ok u =>
          cases readerResult with
          | error e => rfl
          | ok b =>
            cases writeResult with
            | error e => rfl
            | ok u2 => rfl

/-! ### Try-on cache-hit and force-regenerate logic -/

/-- Claim C3: with `forceRegenerate = false` and a cache hit, the cached
visualization is returned unchanged and the only performed effect is the
cache lookup: no generation, no upload, no cache write. -/
theorem getTryOnVisualization_cache_hit (w : TryOnWorld)
    (clothingItems : List WardrobeItem) (userId : JSStr) (cached : OutfitVisualization)
    (huser : w.currentUserId = some userId)
    (hcache : w.cacheResult (generateCombinationHash userId
        (clothingItems.map fun item => item.id)) = .ok (some cached)) :
    getTryOnVisualization w clothingItems false =
        .ok (cached, [TryOnEvent.cacheLookup (generateCombinationHash userId
          (clothingItems.map fun item => item.id))]) ∧
      TryOnEvent.generate ∉ [TryOnEvent.cacheLookup (generateCombinationHash userId
        (clothingItems.map fun item => item.id))] ∧
      (∀ key, TryOnEvent.upload key ∉ [TryOnEvent.cacheLookup (generateCombinationHash
        userId (clothingItems.map fun item => item.id))]) ∧
      (∀ hsh url, TryOnEvent.saveCache hsh url ∉ [TryOnEvent.cacheLookup
        (generateCombinationHash userId (clothingItems.map fun item => item.id))]) := by
  refine ⟨?_, by simp, by simp, by simp⟩
  simp [getTryOnVisualization, huser, hcache]

/-- Claim C3, closed instance: `hitWorld` returns its cached row untouched. -/
theorem getTryOnVisualization_cache_hit_instance :
    getTryOnVisualization hitWorld [] false =
        .ok (sampleVis, [TryOnEvent.cacheLookup (generateCombinationHash [117]
          (([] : List WardrobeItem).map fun item => item.id))]) ∧
      TryOnEvent.generate ∉ [TryOnEvent.cacheLookup (generateCombinationHash [117]
        (([] : List WardrobeItem).map fun item => item.id))] ∧
      (∀ key, TryOnEvent.upload key ∉ [TryOnEvent.cacheLookup (generateCombinationHash
        [117] (([] : List WardrobeItem).map fun item => item.id))]) ∧
      (∀ hsh url, TryOnEvent.saveCache hsh url ∉ [TryOnEvent.cacheLookup
        (generateCombinationHash [117] (([] : List WardrobeItem).map fun item => item.id))]) :=
  getTryOnVisualization_cache_hit hitWorld [] [117] sampleVis rfl rfl

/-- Claim C4: with `forceRegenerate = true` the cache is never consulted,
the upload key is the combination hash with `"_" + Date.now()` appended,
and the cache row for the original hash is written with the new URL; on a
cache miss with `forceRegenerate = false` the upload key is the plain hash. -/
theorem getTryOnVisualization_force_and_miss (w : TryOnWorld)
    (clothingItems : List WardrobeItem)
    (userId localUri visualizationUrl : JSStr) (saved : OutfitVisualization)
    (huser : w.currentUserId = some userId)
    (hgen : w.generateResult = .ok localUri)
    (hup : w.uploadResult = .ok visualizationUrl)
    (hsave : w.saveResult = .ok saved) :
    (getTryOnVisualization w clothingItems true =
        .ok (saved, [TryOnEvent.generate,
          TryOnEvent.upload (generateCombinationHash userId
            (clothingItems.map fun item => item.id) ++ usCode :: decRep w.now),
          TryOnEvent.saveCache (generateCombinationHash userId
            (clothingItems.map fun item => item.id)) visualizationUrl]) ∧
      (∀ hsh, TryOnEvent.cacheLookup hsh ∉ [TryOnEvent.generate,
        TryOnEvent.upload (generateCombinationHash userId
          (clothingItems.map fun item => item.id) ++ usCode :: decRep w.now),
        TryOnEvent.saveCache (generateCombinationHash userId
          (clothingItems.map fun item => item.id)) visualizationUrl])) ∧
    (w.cacheResult (generateCombinationHash userId
        (clothingItems.map fun item => item.id)) = .ok none →
      getTryOnVisualization w clothingItems false =
        .ok (saved, [TryOnEvent.cacheLookup (generateCombinationHash userId
            (clothingItems.map fun item => item.id)),
          TryOnEvent.generate,
          TryOnEvent.upload (generateCombinationHash userId
            (clothingItems.map fun item => item.id)),
          TryOnEvent.saveCache (generateCombinationHash userId
            (clothingItems.map fun item => item.id)) visualizationUrl])) := by
  refine ⟨⟨?_, by simp⟩, fun hmiss => ?_⟩
  · simp [getTryOnVisualization, finishGeneration, huser, hgen, hup, hsave]
  · simp [getTryOnVisualization, finishGeneration, huser, hgen, hup, hsave, hmiss]

/-- Claim C4, closed instance: `missWorld` under force-regenerate uploads
under the timestamped key, and under a plain miss uploads under the bare
hash. -/
theorem getTryOnVisualization_force_and_miss_instance :
    getTryOnVisualization missWorld [] true =
        .ok (sampleVis, [TryOnEvent.generate,
          TryOnEvent.upload (generateCombinationHash [117]
            (([] : List WardrobeItem).map fun item => item.id) ++
              usCode :: decRep missWorld.now),
          TryOnEvent.saveCache (generateCombinationHash [117]
            (([] : List WardrobeItem).map fun item => item.id)) [118]]) ∧
      getTryOnVisualization missWorld [] false =
        .ok (sampleVis, [TryOnEvent.cacheLookup (generateCombinationHash [117]
            (([] : List WardrobeItem).map fun item => item.id)),
          TryOnEvent.generate,
          TryOnEvent.upload (generateCombinationHash [117]
            (([] : List WardrobeItem).map fun item => item.id)),
          TryOnEvent.saveCache (generateCombinationHash [117]
            (([] : List WardrobeItem).map fun item => item.id)) [118]]) :=
  ⟨(getTryOnVisualization_force_and_miss missWorld [] [117] [108] [118] sampleVis
      rfl rfl rfl rfl).1.1,
    (getTryOnVisualization_force_and_miss missWorld [] [117] [108] [118] sampleVis
      rfl rfl rfl rfl).2 rfl⟩

/-! ### Cache upsert uniqueness -/

/-- Upserting an already-present hash leaves the hash column unchanged. -/
theorem upsert_hashes_of_present (table : List VisualizationRow) (ins : VisualizationRow)
    (h : table.any (fun r => r.combination_hash == ins.combination_hash) = true) :
    tableHashes (upsertVisualization table ins) = tableHashes table := by
  unfold upsertVisualization
  rw [if_pos h]
  simp only [tableHashes, List.map_map]
  apply List.map_congr_left
  intro r _
  simp only [Function.comp_apply]
  by_cases hr : r.combination_hash = ins.combination_hash
  · simp [hr]
  · simp [hr]

/-- Upserting preserves uniqueness of the hash column. -/
theorem upsert_nodup (table : List VisualizationRow) (ins : VisualizationRow)
    (hnd : (tableHashes table).Nodup) :
    (tableHashes (upsertVisualization table ins)).Nodup := by
  by_cases h : table.any (fun r => r.combination_hash == ins.combination_hash) = true
  · rw [upsert_hashes_of_present table ins h]
    exact hnd
  · unfold upsertVisualization
    rw [if_neg h]
    simp only [tableHashes, List.map_append, List.map_singleton]
    rw [List.nodup_append]
    refine ⟨hnd, List.nodup_singleton _, ?_⟩
    intro a ha hb
    simp only [List.mem_singleton] at hb
    subst hb
    simp only [List.mem_map] at ha
    obtain ⟨r, hr, hra⟩ := ha
    apply h
    rw [List.any_eq_true]
    exact ⟨r, hr, by simp [hra]⟩

/-- After upserting a present hash, the row found under that hash is the
new payload. -/
theorem upsert_find_present (table : List VisualizationRow) (ins : VisualizationRow)
    (h : table.any (fun r => r.combination_hash == ins.combination_hash) = true) :
    (upsertVisualization table ins).find?
      (fun r => r.combination_hash == ins.combination_hash) = some ins := by
  unfold upsertVisualization
  rw [if_pos h]
  induction table with
  | nil => simp at h
  | cons r rest ih =>
    by_cases hr : r.combination_hash = ins.combination_hash
    · rw [List.map_cons, if_pos (by simp [hr]), List.find?_cons_of_pos _ (by simp)]
    · have h' : rest.any (fun q => q.combination_hash == ins.combination_hash) = true := by
        simpa [hr] using h
      rw [List.map_cons, if_neg (by simp [hr]), List.find?_cons_of_neg _ (by simp [hr])]
      exact ih h'

/-- Any fold of upserts from the empty table keeps the hash column unique. -/
theorem foldl_upsert_nodup (calls : List VisualizationRow) :
    ∀ table : List VisualizationRow, (tableHashes table).Nodup →
      (tableHashes (calls.foldl upsertVisualization table)).Nodup := by
  induction calls with
  | nil => intro table hnd; exact hnd
  | cons ins rest ih =>
    intro table hnd
    exact ih (upsertVisualization table ins) (upsert_nodup table ins hnd)

/-- Claim C6: `saveVisualization` performs a single upsert keyed on the
unique `combination_hash` column: a present hash replaces the row payload
without changing the row count, an absent hash adds one row, uniqueness of
the hash column is preserved, and any sequence of calls starting from the
empty table leaves at most one row per hash. -/
theorem saveVisualization_upsert_unique (userId : JSStr) (table : List VisualizationRow)
    (combinationHash : JSStr) (itemIds : List JSStr) (visualizationUrl : JSStr)
    (hnd : (tableHashes table).Nodup) :
    saveVisualization (some userId) table combinationHash itemIds visualizationUrl =
        .ok (upsertVisualization table
          { user_id := userId, combination_hash := combinationHash,
            item_ids := itemIds, visualization_url := visualizationUrl }) ∧
      (∀ ins : VisualizationRow,
        (table.any (fun r => r.combination_hash == ins.combination_hash) = true →
          (upsertVisualization table ins).length = table.length ∧
            (upsertVisualization table ins).find?
              (fun r => r.combination_hash == ins.combination_hash) = some ins) ∧
        (table.any (fun r => r.combination_hash == ins.combination_hash) = false →
          (upsertVisualization table ins).length = table.length + 1) ∧
        (tableHashes (upsertVisualization table ins)).Nodup) ∧
      ∀ calls : List VisualizationRow,
        (tableHashes (calls.foldl upsertVisualization [])).Nodup := by
  refine ⟨rfl, fun ins => ⟨fun hpresent => ⟨?_, upsert_find_present table ins hpresent⟩,
    fun habsent => ?_, upsert_nodup table ins hnd⟩,
    fun calls => foldl_upsert_nodup calls [] (by simp [tableHashes])⟩
  · unfold upsertVisualization
    rw [if_pos hpresent]
    simp
  · unfold upsertVisualization
    rw [if_neg (by simp [habsent])]
    simp

/-- Claim C6, closed instance: upserting the hash `"h"` into a one-row
table with the same hash replaces the payload and keeps one unique row. -/
theorem saveVisualization_upsert_unique_instance :
    saveVisualization (some [117]) [rowA] rowB.combination_hash rowB.item_ids
        rowB.visualization_url = .ok (upsertVisualization [rowA] rowB) ∧
      (upsertVisualization [rowA] rowB).length = 1 ∧
      (upsertVisualization [rowA] rowB).find?
        (fun r => r.combination_hash == rowB.combination_hash) = some rowB :=
  ⟨(saveVisualization_upsert_unique [117] [rowA] rowB.combination_hash rowB.item_ids
      rowB.visualization_url (by decide)).1,
    ((saveVisualization_upsert_unique [117] [rowA] rowB.combination_hash rowB.item_ids
      rowB.visualization_url (by decide)).2.1 rowB).1 (by decide) |>.1,
    ((saveVisualization_upsert_unique [117] [rowA] rowB.combination_hash rowB.item_ids
      rowB.visualization_url (by decide)).2.1 rowB).1 (by decide) |>.2⟩

/-! ### Optimistic delete -/

/-- Claim C8: `deleteItem` removes the item locally before the backend
delete runs; when the backend throws or reports failure it refetches the
list from the database, sets the error state, and rethrows. -/
theorem deleteItem_optimistic_failure (w : DeleteWorld) (st : WardrobeState)
    (itemId : JSStr) (fetched : List WardrobeItem)
    (hfail : w.deleteResult ≠ .ok true)
    (hre : w.refetchResult = .ok fetched) :
    (deleteItemModel w st itemId).2.2.take 2 =
        [DeleteEvent.optimisticRemove, DeleteEvent.backendDelete] ∧
      DeleteEvent.refetch ∈ (deleteItemModel w st itemId).2.2 ∧
      (deleteItemModel w st itemId).1.items = fetched ∧
      (deleteItemModel w st itemId).1.error.isSome = true ∧
      ∃ e, (deleteItemModel w st itemId).2.1 = Except.error e := by
  cases hdel : w.deleteResult with
  | error e =>
    simp [deleteItemModel, fetchItemsModel, hdel, hre]
  | ok b =>
    cases b with
    | false => simp [deleteItemModel, fetchItemsModel, hdel, hre]
    | true => exact absurd hdel hfail

/-- Claim C8, closed instance: a backend delete reporting failure leads to
a refetched list, a set error state and a rethrown error. -/
theorem deleteItem_optimistic_failure_instance :
    (deleteItemModel failDeleteWorld { items := [], error := none } [97]).2.2.take 2 =
        [DeleteEvent.optimisticRemove, DeleteEvent.backendDelete] ∧
      DeleteEvent.refetch ∈
        (deleteItemModel failDeleteWorld { items := [], error := none } [97]).2.2 ∧
      (deleteItemModel failDeleteWorld { items := [], error := none } [97]).1.items = [] ∧
      (deleteItemModel failDeleteWorld
        { items := [], error := none } [97]).1.error.isSome = true ∧
      ∃ e, (deleteItemModel failDeleteWorld
        { items := [], error := none } [97]).2.1 = Except.error e :=
  deleteItem_optimistic_failure failDeleteWorld { items := [], error := none } [97] []
    (by simp [failDeleteWorld]) rfl

/-! ### Upload pipeline: partial failure (claim C2) -/

/-- If the first `k` items of the loop succeed (with created rows `d`) and
the `k`-th fails at some stage, the loop returns exactly the `k` transformed
rows and a thrown message. -/
theorem processLoop_partial_failure (fx : Nat → ItemFx) (d : Nat → DbItemRow) :
    ∀ (metas : List DetectedItem) (k i : Nat),
      k < metas.length →
      (∀ j, j < k → itemFxOk (fx (i + j)) = true ∧
        (fx (i + j)).createResult = .ok (d (i + j))) →
      itemFxOk (fx (i + k)) = false →
      (processLoop fx metas i).1 =
          (List.range k).map (fun j => toWardrobeItem (d (i + j))) ∧
        ∃ e, (processLoop fx metas i).2.2 = some e := by
  intro metas
  induction metas with
  | nil =>
    intro k i hk
    simp at hk
  | cons m rest ih =>
    intro k i hk hsucc hfail
    cases k with
    | zero =>
      rw [Nat.add_zero] at hfail
      cases hg : (fx i).genResult with
      | error e => simp [processLoop, hg]
      | ok g =>
        cases hu : promiseAllUploads (fx i) with
        | error e => simp [processLoop, hg, hu]
        | ok uu =>
          cases hc : (fx i).createResult with
          | error e => simp [processLoop, hg, hu, hc]
          | ok row => simp [itemFxOk, exceptOk, hg, hu, hc] at hfail
    | succ k2 =>
      obtain ⟨hok0, hcr0⟩ := hsucc 0 (Nat.succ_pos k2)
      rw [Nat.add_zero] at hok0 hcr0
      cases hg : (fx i).genResult with
      | error e => simp [itemFxOk, exceptOk, hg] at hok0
      | ok g =>
        cases hu : promiseAllUploads (fx i) with
        | error e => simp [itemFxOk, exceptOk, hg, hu] at hok0
        | ok uu =>
          have hrec := ih k2 (i + 1) (Nat.lt_of_succ_lt_succ hk)
            (fun j hj => by
              have hs := hsucc (j + 1) (Nat.succ_lt_succ hj)
              rwa [show i + (j + 1) = i + 1 + j by omega] at hs)
            (by rwa [show i + 1 + k2 = i + (k2 + 1) by omega])
          simp only [processLoop, hg, hu, hcr0]
          refine ⟨?_, hrec.2⟩
          rw [hrec.1, List.range_succ_eq_map, List.map_cons, List.map_map]
          rw [Nat.add_zero]
          congr 1
          apply List.map_congr_left
          intro a _
          simp only [Function.comp_apply]
          rw [show i + 1 + a = i + (a + 1) by omega]

/-- Claim C2: when processing of the `k`-th selected item fails after the
first `k` succeeded, `processSelectedItems` does not throw (it is a total
function into `ProcessResult`): it sets the error state and returns exactly
the wardrobe items created before the failure. -/
theorem processSelectedItems_partial_failure (w : UploadWorld)
    (detectedItems : List DetectedItem) (k : Nat) (d : Nat → DbItemRow) (userId : JSStr)
    (huser : w.currentUserId = some userId)
    (hk : k < (detectedItems.filter (fun item => item.selected)).length)
    (hsucc : ∀ j, j < k → itemFxOk (w.fx j) = true ∧ (w.fx j).createResult = .ok (d j))
    (hfail : itemFxOk (w.fx k) = false) :
    (processSelectedItems w detectedItems).items =
        (List.range k).map (fun j => toWardrobeItem (d j)) ∧
      (processSelectedItems w detectedItems).error.isSome = true := by
  have hne : ¬ (detectedItems.filter (fun item => item.selected)).length = 0 := by omega
  have hloop := processLoop_partial_failure w.fx d
    (detectedItems.filter fun item => item.selected) k 0 hk
    (fun j hj => by simpa using hsucc j hj) (by simpa using hfail)
  obtain ⟨e, he⟩ := hloop.2
  have hitems := hloop.1
  simp only [Nat.zero_add] at hitems
  simp only [processSelectedItems]
  rw [if_neg hne]
  simp only [huser]
  rw [he]
  simp [hitems]

/-- Claim C2, closed instance: with two selected items where the second
fails at image generation, exactly the first created item is returned and
the error state is set. -/
theorem processSelectedItems_partial_failure_instance :
    (processSelectedItems failUploadWorld [sampleDetected 0, sampleDetected 1]).items =
        (List.range 1).map (fun _ => toWardrobeItem sampleRow) ∧
      (processSelectedItems failUploadWorld
        [sampleDetected 0, sampleDetected 1]).error.isSome = true :=
  processSelectedItems_partial_failure failUploadWorld [sampleDetected 0, sampleDetected 1]
    1 (fun _ => sampleRow) [117] rfl (by decide)
    (fun j hj => by
      have hj0 : j = 0 := by omega
      subst hj0
      exact ⟨rfl, rfl⟩)
    rfl

/-! ### Upload pipeline: step ordering (claim C7) -/

/-- A successful `Promise.all` means both uploads succeeded. -/
theorem promiseAllUploads_ok {fx : ItemFx} {p : JSStr × JSStr}
    (h : promiseAllUploads fx = .ok p) :
    exceptOk fx.uploadOriginalResult = true ∧ exceptOk fx.uploadIsolatedResult = true := by
  unfold promiseAllUploads at h
  cases ho : fx.uploadOriginalResult with
  | error e => rw [ho] at h; exact absurd h (by simp)
  | ok a =>
    cases hi : fx.uploadIsolatedResult with
    | error e => rw [ho, hi] at h; exact absurd h (by simp)
    | ok b => exact ⟨by simp [exceptOk, ho], by simp [exceptOk, hi]⟩

/-- The loop never performs a detection. -/
theorem detect_not_mem_processLoop (fx : Nat → ItemFx) :
    ∀ (metas : List DetectedItem) (i : Nat),
      UploadEvent.detect ∉ (processLoop fx metas i).2.1 := by
  intro metas
  induction metas with
  | nil => intro i; simp [processLoop]
  | cons m rest ih =>
    intro i
    cases hg : (fx i).genResult with
    | error e => simp [processLoop, hg]
    | ok g =>
      cases hu : promiseAllUploads (fx i) with
      | error e => simp [processLoop, hg, hu]
      | ok uu =>
        cases hc : (fx i).createResult with
        | error e => simp [processLoop, hg, hu, hc]
        | ok row => simp [processLoop, hg, hu, hc, ih (i + 1)]

/-- An insert event for item `j` implies its generation and both uploads
succeeded, and the four per-item events occur in generate, upload, upload,
insert order within the loop trace. -/
theorem insert_mem_processLoop (fx : Nat → ItemFx) :
    ∀ (metas : List DetectedItem) (i j : Nat),
      UploadEvent.insert j ∈ (processLoop fx metas i).2.1 →
      exceptOk (fx j).genResult = true ∧
        exceptOk (fx j).uploadOriginalResult = true ∧
        exceptOk (fx j).uploadIsolatedResult = true ∧
        [UploadEvent.generate j, UploadEvent.uploadOriginal j,
          UploadEvent.uploadIsolated j, UploadEvent.insert j].Sublist
          (processLoop fx metas i).2.1 := by
  intro metas
  induction metas with
  | nil => intro i j hmem; simp [processLoop] at hmem
  | cons m rest ih =>
    intro i j hmem
    cases hg : (fx i).genResult with
    | error e => simp [processLoop, hg] at hmem
    | ok g =>
      cases hu : promiseAllUploads (fx i) with
      | error e => simp [processLoop, hg, hu] at hmem
      | ok uu =>
        cases hc : (fx i).createResult with
        | error e =>
          simp only [processLoop, hg, hu, hc, List.mem_cons, List.mem_singleton,
            List.not_mem_nil, or_false] at hmem
          rcases hmem with h1 | h1 | h1 | h1
          · exact absurd h1 (by simp)
          · exact absurd h1 (by simp)
          · exact absurd h1 (by simp)
          · obtain rfl : j = i := by injection h1
            refine ⟨by simp [exceptOk, hg], (promiseAllUploads_ok hu).1,
              (promiseAllUploads_ok hu).2, ?_⟩
            simp [processLoop, hg, hu, hc]
        | ok row =>
          simp only [processLoop, hg, hu, hc, List.mem_cons] at hmem
          rcases hmem with h1 | h1 | h1 | h1 | h1
          · exact absurd h1 (by simp)
          · exact absurd h1 (by simp)
          · exact absurd h1 (by simp)
          · obtain rfl : j = i := by injection h1
            refine ⟨by simp [exceptOk, hg], (promiseAllUploads_ok hu).1,
              (promiseAllUploads_ok hu).2, ?_⟩
            simp only [processLoop, hg, hu, hc]
            exact ((((List.nil_sublist _).cons₂ _).cons₂ _).cons₂ _).cons₂ _
          · obtain ⟨hgj, huo, hui, hsub⟩ := ih (i + 1) j h1
            refine ⟨hgj, huo, hui, ?_⟩
            simp only [processLoop, hg, hu, hc]
            exact (((hsub.cons _).cons _).cons _).cons _

/-- An upload event for item `j` implies its generation succeeded and the
generation event precedes it in the loop trace. -/
theorem uploadOriginal_mem_processLoop (fx : Nat → ItemFx) :
    ∀ (metas : List DetectedItem) (i j : Nat),
      UploadEvent.uploadOriginal j ∈ (processLoop fx metas i).2.1 →
      exceptOk (fx j).genResult = true ∧
        [UploadEvent.generate j, UploadEvent.uploadOriginal j].Sublist
          (processLoop fx metas i).2.1 := by
  intro metas
  induction metas with
  | nil => intro i j hmem; simp [processLoop] at hmem
  | cons m rest ih =>
    intro i j hmem
    cases hg : (fx i).genResult with
    | error e => simp [processLoop, hg] at hmem
    | ok g =>
      cases hu : promiseAllUploads (fx i) with
      | error e =>
        simp only [processLoop, hg, hu, List.mem_cons, List.not_mem_nil, or_false] at hmem
        rcases hmem with h1 | h1 | h1
        · exact absurd h1 (by simp)
        · obtain rfl : j = i := by injection h1
          refine ⟨by simp [exceptOk, hg], ?_⟩
          simp only [processLoop, hg, hu]
          exact ((List.nil_sublist _).cons₂ _).cons₂ _
        · exact absurd h1 (by simp)
      | ok uu =>
        cases hc : (fx i).createResult with
        | error e =>
          simp only [processLoop, hg, hu, hc, List.mem_cons, List.not_mem_nil,
            or_false] at hmem
          rcases hmem with h1 | h1 | h1 | h1
          · exact absurd h1 (by simp)
          · obtain rfl : j = i := by injection h1
            refine ⟨by simp [exceptOk, hg], ?_⟩
            simp only [processLoop, hg, hu, hc]
            exact (((List.nil_sublist _).cons _).cons₂ _).cons₂ _
          · exact absurd h1 (by simp)
          · exact absurd h1 (by simp)
        | ok row =>
          simp only [processLoop, hg, hu, hc, List.mem_cons] at hmem
          rcases hmem with h1 | h1 | h1 | h1 | h1
          · exact absurd h1 (by simp)
          · obtain rfl : j = i := by injection h1
            refine ⟨by simp [exceptOk, hg], ?_⟩
            simp only [processLoop, hg, hu, hc]
            exact (((List.nil_sublist _).cons _).cons₂ _).cons₂ _
          · exact absurd h1 (by simp)
          · exact absurd h1 (by simp)
          · obtain ⟨hgj, hsub⟩ := ih (i + 1) j h1
            refine ⟨hgj, ?_⟩
            simp only [processLoop, hg, hu, hc]
            exact (((hsub.cons _).cons _).cons _).cons _

/-- The events of `processSelectedItems` are either empty or exactly the
events of the loop. -/
theorem processSelected_events_cases (w : UploadWorld) (st : List DetectedItem) :
    (processSelectedItems w st).events = [] ∨
      (processSelectedItems w st).events =
        (processLoop w.fx (st.filter fun item => item.selected) 0).2.1 := by
  by_cases h : (st.filter (fun item => item.selected)).length = 0
  · left
    simp only [processSelectedItems]
    rw [if_pos h]
  · cases hu : w.currentUserId with
    | none =>
      left
      simp only [processSelectedItems]
      rw [if_neg h]
      simp only [hu]
    | some uid =>
      right
      simp only [processSelectedItems]
      rw [if_neg h]
      simp only [hu]
      cases hr : (processLoop w.fx (st.filter fun item => item.selected) 0).2.2 with
      | none => rfl
      | some e => rfl

/-- If a first trace segment holds only detections and the second holds
none, every detection index precedes every generation index. -/
theorem detect_before_generate_aux {aE pE : List UploadEvent}
    (hall : ∀ e ∈ aE, e = UploadEvent.detect)
    (hnodet : UploadEvent.detect ∉ pE) :
    ∀ p q (hp : p < (aE ++ pE).length) (hq : q < (aE ++ pE).length) (j : Nat),
      (aE ++ pE).get ⟨p, hp⟩ = UploadEvent.detect →
      (aE ++ pE).get ⟨q, hq⟩ = UploadEvent.generate j → p < q := by
  intro p q hp hq j hdet hgen
  have hplt : p < aE.length := by
    by_contra hge
    push_neg at hge
    have hlen := hp
    rw [List.length_append] at hlen
    have h2 : p - aE.length < pE.length := by omega
    have heq := @List.get_append_right UploadEvent p aE pE hge hp h2
    have hdet2 : pE.get ⟨p - aE.length, h2⟩ = UploadEvent.detect := heq.symm.trans hdet
    have hmem := List.get_mem pE (p - aE.length) h2
    rw [hdet2] at hmem
    exact hnodet hmem
  have hqge : aE.length ≤ q := by
    by_contra hlt
    push_neg at hlt
    have heq := @List.get_append UploadEvent aE pE q hlt
    have hgen2 : aE.get ⟨q, hlt⟩ = UploadEvent.generate j := heq.symm.trans hgen
    have hmem := List.get_mem aE q hlt
    rw [hgen2] at hmem
    have := hall _ hmem
    exact absurd this (by simp)
  omega

/-- Every event of `analyzeImage` is a detection. -/
theorem analyze_events_all_detect (aw : AnalyzeWorld) :
    ∀ e ∈ (analyzeImage aw).events, e = UploadEvent.detect := by
  unfold analyzeImage
  cases hu : aw.currentUserId with
  | none => simp
  | some uid =>
    cases hd : aw.detectResult with
    | error e => simp
    | ok metas => by_cases h : metas.length = 0 <;> simp [h]

/-- Claim C7: pipeline step ordering. In the two-phase flow (detect, user
selection, then per-item processing): an insert for item `j` happens only
with its generation and both uploads succeeded and strictly after them (in
generate, uploads, insert order); an upload happens only after a successful
generation; and every detection event precedes every generation event in
the combined trace. -/
theorem uploadPipeline_step_order (aw : AnalyzeWorld) (w : UploadWorld)
    (select : List DetectedItem → List DetectedItem) :
    (∀ j, UploadEvent.insert j ∈
        (processSelectedItems w (select ((analyzeImage aw).detected.getD []))).events →
      exceptOk (w.fx j).genResult = true ∧
        exceptOk (w.fx j).uploadOriginalResult = true ∧
        exceptOk (w.fx j).uploadIsolatedResult = true ∧
        [UploadEvent.generate j, UploadEvent.uploadOriginal j,
          UploadEvent.uploadIsolated j, UploadEvent.insert j].Sublist
          (processSelectedItems w (select ((analyzeImage aw).detected.getD []))).events) ∧
    (∀ j, UploadEvent.uploadOriginal j ∈
        (processSelectedItems w (select ((analyzeImage aw).detected.getD []))).events →
      exceptOk (w.fx j).genResult = true ∧
        [UploadEvent.generate j, UploadEvent.uploadOriginal j].Sublist
          (processSelectedItems w (select ((analyzeImage aw).detected.getD []))).events) ∧
    (∀ p q (hp : p < (twoPhaseEvents aw w select).length)
        (hq : q < (twoPhaseEvents aw w select).length) (j : Nat),
      (twoPhaseEvents aw w select).get ⟨p, hp⟩ = UploadEvent.detect →
      (twoPhaseEvents aw w select).get ⟨q, hq⟩ = UploadEvent.generate j →
      p < q) := by
  refine ⟨fun j hj => ?_, fun j hj => ?_, fun p q hp hq j hdet hgen => ?_⟩
  · rcases processSelected_events_cases w (select ((analyzeImage aw).detected.getD []))
      with hcase | hcase
    · rw [hcase] at hj
      exact absurd hj (List.not_mem_nil _)
    · rw [hcase] at hj ⊢
      exact insert_mem_processLoop w.fx _ 0 j hj
  · rcases processSelected_events_cases w (select ((analyzeImage aw).detected.getD []))
      with hcase | hcase
    · rw [hcase] at hj
      exact absurd hj (List.not_mem_nil _)
    · rw [hcase] at hj ⊢
      exact uploadOriginal_mem_processLoop w.fx _ 0 j hj
  · have hnodet : UploadEvent.detect ∉
        (processSelectedItems w (select ((analyzeImage aw).detected.getD []))).events := by
      rcases processSelected_events_cases w (select ((analyzeImage aw).detected.getD []))
        with hcase | hcase
      · rw [hcase]; exact List.not_mem_nil _
      · rw [hcase]; exact detect_not_mem_processLoop w.fx _ 0
    exact detect_before_generate_aux (analyze_events_all_detect aw) hnodet p q hp hq j
      hdet hgen

/-- Claim C7, closed instance: one detected, selected and successfully
processed item yields the trace detect, generate, upload, upload, insert,
with detection strictly before generation. -/
theorem uploadPipeline_step_order_instance :
    (exceptOk (okUploadWorld.fx 0).genResult = true ∧
      exceptOk (okUploadWorld.fx 0).uploadOriginalResult = true ∧
      exceptOk (okUploadWorld.fx 0).uploadIsolatedResult = true ∧
      [UploadEvent.generate 0, UploadEvent.uploadOriginal 0, UploadEvent.uploadIsolated 0,
        UploadEvent.insert 0].Sublist
        (processSelectedItems okUploadWorld
          (id ((analyzeImage sampleAnalyzeWorld).detected.getD []))).events) ∧
      (0 : Nat) < 1 :=
  ⟨(uploadPipeline_step_order sampleAnalyzeWorld okUploadWorld id).1 0 (by decide),
    (uploadPipeline_step_order sampleAnalyzeWorld okUploadWorld id).2.2 0 1
      (by decide) (by decide) 0 (by decide) (by decide)⟩

end WearLy
